import Mathlib

/-!
Shallow embedding of the geometry analysis engine of `backend/app/main.py`
(functions `get_color_name`, `extract_layers`, `calculate_bounding_box`,
`extract_measurements`, `extract_preview_geometry`), together with proofs
of the specification claims about them.

Modelling conventions:
* Python floats are modelled as exact rationals (`ℚ`); `math.sqrt` is an
  abstract parameter `sqrt : ℚ → ℚ` threaded through the length
  computations (no other operation of the source needs it).
* Python's `round(x, 4)` (round-half-to-even at 4 decimal digits) is
  modelled exactly by `round4`.
* Attribute reads that the source wraps in `try/except` or guards with
  `hasattr` are modelled as `Option`-valued fields (`none` = the read
  raises / the attribute is absent); reads the source performs unguarded
  are modelled as total fields.
* The Python dictionaries `layer_entity_counts`, `layer_line_lengths`,
  `layer_closed_areas` are read only through `.get(key, default)`, so they
  are modelled as total functions `String → _` with default value zero.
* `ezdxf.bbox.extents` is an external library call; it is modelled as an
  `Option Extents3` input parameter (`none` = the call raised or returned
  a falsy/empty extents object, which sends the source to its fallback
  scan).
-/

/-- A 2D point, the `(p[0], p[1])` projection the source uses everywhere. -/
abbrev Point := ℚ × ℚ

/-- Kind-specific payload of a modelspace entity (`entity.dxftype()` plus the
fields the source reads on each kind).  `Option` fields are the reads the
source guards with `try/except` or `hasattr`. -/
inductive EKind where
  | line (lstart lend : Point)
  | lwpolyline (points : List Point) (closed : Bool)
  | hatch (total_area : Option ℚ)
  | circle (center : Point) (radius : ℚ)
  | arc (center : Point) (radius start_angle end_angle : ℚ)
  | text (insert : Point) (txt : String) (height : Option ℚ) (rotation : Option ℚ)
  | mtext (insert : Point) (txt : String) (char_height : Option ℚ) (rotation : Option ℚ)
  | dimension (dtext : Option String) (actual_measurement : Option ℚ)
      (dimstyle : String) (defpoint : Option Point) (text_midpoint : Option Point)
  | other (typeName : String)
  deriving DecidableEq

/-- A modelspace entity: `entity.dxf.layer`, the optional
`entity.dxf.color` (absent when `hasattr(entity.dxf, 'color')` is false),
and the kind-specific payload. -/
structure Entity where
  layer : String
  color : Option Int
  kind : EKind
  deriving DecidableEq

/-- The string `entity.dxftype()` returns. -/
def EKind.dxftype : EKind → String
  | .line .. => "LINE"
  | .lwpolyline .. => "LWPOLYLINE"
  | .hatch .. => "HATCH"
  | .circle .. => "CIRCLE"
  | .arc .. => "ARC"
  | .text .. => "TEXT"
  | .mtext .. => "MTEXT"
  | .dimension .. => "DIMENSION"
  | .other s => s

/-- One row of the layer table: `layer.dxf.name`, `layer.dxf.color`,
`layer.is_off()`. -/
structure Layer where
  name : String
  color : Int
  is_off : Bool
  deriving DecidableEq

/-- The parsed document: the modelspace entity sequence (`doc.modelspace()`)
and the layer table (`doc.layers`), both in iteration order. -/
structure Document where
  entities : List Entity
  layers : List Layer
  deriving DecidableEq

/-- The `LayerInfo` pydantic model. -/
structure LayerInfo where
  name : String
  color : Int
  color_name : String
  visible : Bool
  entity_count : ℕ
  line_length : ℚ
  closed_area : ℚ
  deriving DecidableEq

/-- The `BoundingBox` pydantic model. -/
structure BoundingBox where
  min_x : ℚ
  min_y : ℚ
  min_z : ℚ
  max_x : ℚ
  max_y : ℚ
  max_z : ℚ
  width : ℚ
  height : ℚ
  depth : ℚ
  deriving DecidableEq

/-- One record of `Measurements.dimensions` (the source builds a dict with
these keys; `defpoint` / `text_midpoint` are inserted only when present). -/
structure DimRecord where
  dimType : String
  layer : String
  text : String
  actual_measurement : ℚ
  dimstyle : String
  defpoint : Option Point
  text_midpoint : Option Point
  deriving DecidableEq

/-- The `Measurements` pydantic model. -/
structure Measurements where
  total_entities : ℕ
  bounding_box : BoundingBox
  total_line_length : ℚ
  total_closed_area : ℚ
  dimensions : List DimRecord
  deriving DecidableEq

/-- The `data` dict of a `GeometryEntity`, one variant per projected kind
(the §4.4 payload table). -/
inductive PreviewData where
  | line (lstart lend : Point)
  | polyline (points : List Point) (closed : Bool)
  | circle (center : Point) (radius : ℚ)
  | arc (center : Point) (radius start_angle end_angle : ℚ)
  | text (position : Point) (txt : String) (height : ℚ) (rotation : ℚ)
  | mtext (position : Point) (txt : String) (height : ℚ) (rotation : ℚ)
  deriving DecidableEq

/-- The `GeometryEntity` pydantic model. -/
structure GeometryEntity where
  geType : String
  layer : String
  color : Int
  data : PreviewData
  deriving DecidableEq

/-- Python's `round` to an integer: round half to even (banker's rounding). -/
def roundHalfEven (q : ℚ) : ℤ :=
  let n : ℤ := ⌊q⌋
  let f : ℚ := q - n
  if f < 1/2 then n
  else if 1/2 < f then n + 1
  else if n % 2 = 0 then n else n + 1

/-- Python's `round(x, 4)`. -/
def round4 (q : ℚ) : ℚ := (roundHalfEven (q * 10000) : ℚ) / 10000

/-- `get_color_name` of the source: the fixed ACAD palette lookup with the
`"Color {index}"` fallback. -/
def get_color_name (ci : Int) : String :=
  if ci = 0 then "ByBlock"
  else if ci = 1 then "Red"
  else if ci = 2 then "Yellow"
  else if ci = 3 then "Green"
  else if ci = 4 then "Cyan"
  else if ci = 5 then "Blue"
  else if ci = 6 then "Magenta"
  else if ci = 7 then "White/Black"
  else if ci = 8 then "Dark Gray"
  else if ci = 9 then "Light Gray"
  else if ci = 10 then "Light Red"
  else if ci = 11 then "Light Yellow"
  else if ci = 12 then "Light Green"
  else if ci = 13 then "Light Cyan"
  else if ci = 14 then "Light Blue"
  else if ci = 15 then "Light Magenta"
  else "Color " ++ toString ci

/-- `math.sqrt((x2-x1)**2 + (y2-y1)**2)` for one segment, with the abstract
square root `s`. -/
def segLen (s : ℚ → ℚ) (p q : Point) : ℚ :=
  s ((q.1 - p.1) ^ 2 + (q.2 - p.2) ^ 2)

/-- One shoelace term `x1*y2 - x2*y1`. -/
def cross (p q : Point) : ℚ := p.1 * q.2 - q.1 * p.2

/-- The cyclic accumulation `for i in range(len(ps)): f(ps[i], ps[(i+1) % len(ps)])`
of the source's polyline loop, as a sum over the index range. -/
def cyc (f : Point → Point → ℚ) (ps : List Point) : ℚ :=
  ∑ i ∈ Finset.range ps.length, f (ps.getD i (0, 0)) (ps.getD ((i + 1) % ps.length) (0, 0))

/-- The `length` accumulated by the source's polyline loop. -/
def polyLength (s : ℚ → ℚ) (ps : List Point) : ℚ := cyc (segLen s) ps

/-- The signed `area` accumulated by the source's polyline loop
(before `abs(area) / 2`). -/
def shoelace (ps : List Point) : ℚ := cyc cross ps

/-- The three per-layer accumulator dictionaries of `extract_layers`,
read only via `.get(name, 0)`, hence modelled as total functions. -/
structure LAcc where
  count : String → ℕ
  len : String → ℚ
  area : String → ℚ

/-- The all-zero initial accumulator state. -/
def LAcc.zero : LAcc := ⟨fun _ => 0, fun _ => 0, fun _ => 0⟩

/-- Pointwise update of a rational-valued dictionary. -/
def updQ (f : String → ℚ) (k : String) (v : ℚ) : String → ℚ :=
  fun n => if n = k then v else f n

/-- Pointwise update of the count dictionary. -/
def updN (f : String → ℕ) (k : String) (v : ℕ) : String → ℕ :=
  fun n => if n = k then v else f n

/-- The body of the `for entity in msp:` loop of `extract_layers`: bump the
entity count of the entity's layer, then add length / area contributions
according to the entity's kind. -/
def entityStep (s : ℚ → ℚ) (acc : LAcc) (e : Entity) : LAcc :=
  let acc1 : LAcc := { acc with count := updN acc.count e.layer (acc.count e.layer + 1) }
  match e.kind with
  | .line p q =>
      { acc1 with len := updQ acc1.len e.layer (acc1.len e.layer + segLen s p q) }
  | .lwpolyline ps closed =>
      if 1 < ps.length then
        let acc2 : LAcc :=
          { acc1 with len := updQ acc1.len e.layer (acc1.len e.layer + polyLength s ps) }
        if closed then
          { acc2 with area := updQ acc2.area e.layer (acc2.area e.layer + |shoelace ps| / 2) }
        else acc2
      else acc1
  | .hatch total_area =>
      match total_area with
      | some a => { acc1 with area := updQ acc1.area e.layer (acc1.area e.layer + a) }
      | none => acc1
  | _ => acc1

/-- `extract_layers` of the source: fold the accumulation loop over the
modelspace, then emit one `LayerInfo` per layer-table row, in table order,
reading the accumulators with default 0 and rounding to 4 decimals. -/
def extract_layers (s : ℚ → ℚ) (doc : Document) : List LayerInfo :=
  let acc := doc.entities.foldl (entityStep s) LAcc.zero
  doc.layers.map fun l =>
    { name := l.name
      color := l.color
      color_name := get_color_name l.color
      visible := !l.is_off
      entity_count := acc.count l.name
      line_length := round4 (acc.len l.name)
      closed_area := round4 (acc.area l.name) }

/-- The result of a successful `ezdxf.bbox.extents` call: a truthy extents
object with its `extmin` / `extmax` 3D corners. -/
structure Extents3 where
  extmin : ℚ × ℚ × ℚ
  extmax : ℚ × ℚ × ℚ
  deriving DecidableEq

/-- The all-zero sentinel `BoundingBox`. -/
def zeroBox : BoundingBox :=
  { min_x := 0, min_y := 0, min_z := 0, max_x := 0, max_y := 0, max_z := 0
    width := 0, height := 0, depth := 0 }

/-- The `BoundingBox` the source builds from a min/max corner pair. -/
def boxOfCorners (mn mx : ℚ × ℚ × ℚ) : BoundingBox :=
  { min_x := mn.1, min_y := mn.2.1, min_z := mn.2.2
    max_x := mx.1, max_y := mx.2.1, max_z := mx.2.2
    width := mx.1 - mn.1
    height := mx.2.1 - mn.2.1
    depth := mx.2.2 - mn.2.2 }

/-- The points one entity contributes to the fallback scan of
`calculate_bounding_box`: `LINE` endpoints, and the vertex sequence of any
entity exposing `get_points` (`LWPOLYLINE` in this model), each with z
forced to 0. -/
def fallbackEntityPoints (e : Entity) : List (ℚ × ℚ × ℚ) :=
  match e.kind with
  | .line p q => [(p.1, p.2, 0), (q.1, q.2, 0)]
  | .lwpolyline ps _ => ps.map fun p => (p.1, p.2, 0)
  | _ => []

/-- `all_points` of the fallback scan. -/
def fallbackPoints (doc : Document) : List (ℚ × ℚ × ℚ) :=
  doc.entities.foldr (fun e acc => fallbackEntityPoints e ++ acc) []

/-- Python's `min(...)` over a nonempty sequence (default 0 on empty; the
source only calls it on nonempty sequences). -/
def qmin : List ℚ → ℚ
  | [] => 0
  | a :: t => t.foldl min a

/-- Python's `max(...)` over a nonempty sequence (default 0 on empty). -/
def qmax : List ℚ → ℚ
  | [] => 0
  | a :: t => t.foldl max a

/-- `calculate_bounding_box` of the source.  `ext` is the outcome of the
external `ezdxf.bbox.extents` call: `some` when it returned a truthy
extents object (primary path), `none` when it raised or returned a falsy
one (fallback scan over `LINE` endpoints and `get_points` vertices, then
the all-zero sentinel when no points were collected). -/
def calculate_bounding_box (ext : Option Extents3) (doc : Document) : BoundingBox :=
  match ext with
  | some e => boxOfCorners e.extmin e.extmax
  | none =>
    let pts := fallbackPoints doc
    if pts.isEmpty then zeroBox
    else
      let mn : ℚ × ℚ × ℚ :=
        (qmin (pts.map fun p => p.1), qmin (pts.map fun p => p.2.1),
          qmin (pts.map fun p => p.2.2))
      let mx : ℚ × ℚ × ℚ :=
        (qmax (pts.map fun p => p.1), qmax (pts.map fun p => p.2.1),
          qmax (pts.map fun p => p.2.2))
      boxOfCorners mn mx

/-- The per-`DIMENSION` record construction of `extract_measurements`:
`none` when the entity is not a `DIMENSION`, or when one of the required
reads (`get_text()`, `get_actual_measurement()`) raises, in which case the
source's `except` drops the record; the `hasattr`-guarded `defpoint` /
`text_midpoint` are passed through as options. -/
def dimRecord (e : Entity) : Option DimRecord :=
  match e.kind with
  | .dimension dtext am dimstyle defpoint text_midpoint =>
    match dtext, am with
    | some t, some m =>
        some { dimType := "DIMENSION", layer := e.layer, text := t
               actual_measurement := m, dimstyle := dimstyle
               defpoint := defpoint, text_midpoint := text_midpoint }
    | _, _ => none
  | _ => none

/-- `extract_measurements` of the source: entity count, bounding box,
rounded totals over the `extract_layers` rows, and the dimension records
collected with per-entity error absorption. -/
def extract_measurements (s : ℚ → ℚ) (ext : Option Extents3) (doc : Document) :
    Measurements :=
  let total_entities := doc.entities.length
  let bounding_box := calculate_bounding_box ext doc
  let layers := extract_layers s doc
  let total_line_length := (layers.map fun l => l.line_length).sum
  let total_closed_area := (layers.map fun l => l.closed_area).sum
  let dimensions := doc.entities.filterMap dimRecord
  { total_entities := total_entities
    bounding_box := bounding_box
    total_line_length := round4 total_line_length
    total_closed_area := round4 total_closed_area
    dimensions := dimensions }

/-- The per-entity projection of `extract_preview_geometry`: `some` for the
six supported kinds whose guarded reads all succeed (a failed read raises
inside the `try`, so the entity is skipped), `none` for every other kind.
`color` is `entity.dxf.color` when present, else 7; `rotation` defaults
to 0 when absent. -/
def projectEntity (e : Entity) : Option GeometryEntity :=
  let color := e.color.getD 7
  match e.kind with
  | .line p q =>
      some { geType := "LINE", layer := e.layer, color := color, data := .line p q }
  | .lwpolyline ps closed =>
      some { geType := "LWPOLYLINE", layer := e.layer, color := color
             data := .polyline ps closed }
  | .circle c r =>
      some { geType := "CIRCLE", layer := e.layer, color := color, data := .circle c r }
  | .arc c r sa ea =>
      some { geType := "ARC", layer := e.layer, color := color, data := .arc c r sa ea }
  | .text pos t h? rot? =>
      h?.map fun h =>
        { geType := "TEXT", layer := e.layer, color := color
          data := .text pos t h (rot?.getD 0) }
  | .mtext pos t h? rot? =>
      h?.map fun h =>
        { geType := "MTEXT", layer := e.layer, color := color
          data := .mtext pos t h (rot?.getD 0) }
  | _ => none

/-- `extract_preview_geometry` of the source: the bounding box paired with
the per-entity projections, skipping unsupported kinds and entities whose
projection fails. -/
def extract_preview_geometry (ext : Option Extents3) (doc : Document) :
    BoundingBox × List GeometryEntity :=
  (calculate_bounding_box ext doc, doc.entities.filterMap projectEntity)

/-- The 2D points of an entity the bounding-containment claim quantifies
over: `Line` endpoints and `Polyline` vertices. -/
def entityPoints2D (e : Entity) : List Point :=
  match e.kind with
  | .line p q => [p, q]
  | .lwpolyline ps _ => ps
  | _ => []

/-- Assumption on the external `ezdxf.bbox.extents` result (the spec treats
the parsing library as an assumed-correct external collaborator): when the
call yields a min/max pair, the document has at least one entity and every
`Line` endpoint / `Polyline` vertex lies inside the pair. -/
def ExtentsValid (doc : Document) (ext : Option Extents3) : Prop :=
  ∀ ex, ext = some ex → doc.entities ≠ [] ∧
    ∀ e ∈ doc.entities, ∀ p ∈ entityPoints2D e,
      ex.extmin.1 ≤ p.1 ∧ p.1 ≤ ex.extmax.1 ∧
      ex.extmin.2.1 ≤ p.2 ∧ p.2 ≤ ex.extmax.2.1

/-! ### Helper lemmas -/

/-- Rounding an integer-valued rational is the identity. -/
lemma roundHalfEven_intCast (k : ℤ) : roundHalfEven (k : ℚ) = k := by
  simp [roundHalfEven]

/-- `round4` is the identity on multiples of `1/10000`. -/
lemma round4_eq_self (q : ℚ) (k : ℤ) (h : q * 10000 = (k : ℚ)) : round4 q = q := by
  have h1 : roundHalfEven (q * 10000) = k := by rw [h]; exact roundHalfEven_intCast k
  have h2 : round4 q = (k : ℚ) / 10000 := by rw [round4, h1]
  rw [h2, ← h]
  field_simp

/-- `entityStep` bumps the count of the entity's layer by one and leaves
all other counts unchanged, whatever the entity's kind. -/
lemma entityStep_count (s : ℚ → ℚ) (acc : LAcc) (e : Entity) (name : String) :
    (entityStep s acc e).count name =
      if name = e.layer then acc.count name + 1 else acc.count name := by
  have hcount : (entityStep s acc e).count = updN acc.count e.layer (acc.count e.layer + 1) := by
    rcases e with ⟨L, c, k⟩
    cases k with
    | lwpolyline ps closed =>
        simp only [entityStep]
        split
        · cases closed <;> rfl
        · rfl
    | hatch o => cases o <;> rfl
    | _ => rfl
  rw [hcount, updN]
  by_cases h : name = e.layer
  · simp [h]
  · simp [h]

/-- Folding `entityStep` over an entity list adds, to each name's count,
the number of entities on that layer. -/
lemma foldl_entityStep_count (s : ℚ → ℚ) (es : List Entity) (acc : LAcc) (name : String) :
    (es.foldl (entityStep s) acc).count name =
      acc.count name + (es.filter fun e => e.layer = name).length := by
  induction es generalizing acc with
  | nil => simp
  | cons e t ih =>
    rw [List.foldl_cons, ih, entityStep_count]
    by_cases h : e.layer = name
    · simp [h, List.filter_cons]
      omega
    · have h2 : ¬ (name = e.layer) := fun hh => h hh.symm
      simp [h, h2, List.filter_cons]

/-- The names of the `extract_layers` rows are exactly the layer-table
names, in table order. -/
lemma extract_layers_names (s : ℚ → ℚ) (doc : Document) :
    (extract_layers s doc).map (fun li => li.name) = doc.layers.map (fun l => l.name) := by
  simp only [extract_layers, List.map_map]
  rfl

/-! ### Claim theorems -/

/-- A document holding one entity whose layer name `"X"` is absent from the
(empty) layer table. -/
def unknownLayerDoc : Document :=
  ⟨[⟨"X", none, .line (0, 0) (1, 0)⟩], []⟩

/-- Claim C1, counterexample: in `unknownLayerDoc` an entity references the
layer `"X"`, which is absent from the layer table, yet `extract_layers`
returns no row at all — in particular no statistics row for `"X"`. -/
theorem C1_counterexample :
    (∃ e ∈ unknownLayerDoc.entities, e.layer = "X")
    ∧ ("X" ∉ unknownLayerDoc.layers.map fun l => l.name)
    ∧ extract_layers (fun q => q) unknownLayerDoc = [] := by
  refine ⟨⟨⟨"X", none, .line (0, 0) (1, 0)⟩, ?_, rfl⟩, ?_, rfl⟩
  · simp [unknownLayerDoc]
  · simp [unknownLayerDoc]

/-- Claim C1 (amended): an entity whose `layer_name` is absent from the layer
table is tallied in the internal accumulator bucket for that name, but
`extract_layers` emits statistics rows only for layers of the table, so no
output row carries that layer name. -/
theorem C1_unknown_layer_amended (s : ℚ → ℚ) (doc : Document) (name : String)
    (h : name ∉ doc.layers.map fun l => l.name) :
    (∀ li ∈ extract_layers s doc, li.name ≠ name)
    ∧ (doc.entities.foldl (entityStep s) LAcc.zero).count name
        = (doc.entities.filter fun e => e.layer = name).length := by
  constructor
  · intro li hli hname
    have hmem : li.name ∈ (extract_layers s doc).map fun li => li.name :=
      List.mem_map_of_mem _ hli
    rw [extract_layers_names] at hmem
    exact h (hname ▸ hmem)
  · rw [foldl_entityStep_count]
    simp [LAcc.zero]

/-- Witness for the amended claim C1 at `unknownLayerDoc`. -/
theorem C1_unknown_layer_amended_witness :
    ("X" ∉ unknownLayerDoc.layers.map fun l => l.name)
    ∧ ((∀ li ∈ extract_layers (fun q => q) unknownLayerDoc, li.name ≠ "X")
      ∧ (unknownLayerDoc.entities.foldl (entityStep fun q => q) LAcc.zero).count "X"
          = (unknownLayerDoc.entities.filter fun e => e.layer = "X").length) :=
  ⟨by simp [unknownLayerDoc], C1_unknown_layer_amended (fun q => q) unknownLayerDoc "X"
    (by simp [unknownLayerDoc])⟩

/-- Claim C4: every layer-table name appears in the `extract_layers` output,
in table iteration order and (given the table's names are unique, as the
data model states) exactly once, and each row's `entity_count` is the number
of document entities on that layer. -/
theorem C4_layer_completeness (s : ℚ → ℚ) (doc : Document)
    (h : (doc.layers.map fun l => l.name).Nodup) :
    ((extract_layers s doc).map (fun li => li.name) = doc.layers.map fun l => l.name)
    ∧ (∀ name ∈ doc.layers.map fun l => l.name,
        ((extract_layers s doc).map fun li => li.name).count name = 1)
    ∧ ∀ li ∈ extract_layers s doc,
        li.entity_count = (doc.entities.filter fun e => e.layer = li.name).length := by
  refine ⟨extract_layers_names s doc, ?_, ?_⟩
  · intro name hname
    rw [extract_layers_names]
    exact List.count_eq_one_of_mem h hname
  · intro li hli
    simp only [extract_layers, List.mem_map] at hli
    obtain ⟨l, _, rfl⟩ := hli
    simp only [foldl_entityStep_count]
    simp [LAcc.zero]

/-- A small concrete document for witnesses: one line entity on layer `"A"`,
a layer table with rows `"A"` and `"B"`. -/
def witDoc : Document :=
  ⟨[⟨"A", some 1, .line (0, 0) (3, 4)⟩],
    [⟨"A", 1, false⟩, ⟨"B", 2, true⟩]⟩

/-- Witness for claim C4 at `witDoc`. -/
theorem C4_layer_completeness_witness :
    ((witDoc.layers.map fun l => l.name).Nodup)
    ∧ (((extract_layers (fun q => q) witDoc).map (fun li => li.name)
          = witDoc.layers.map fun l => l.name)
      ∧ (∀ name ∈ witDoc.layers.map fun l => l.name,
          ((extract_layers (fun q => q) witDoc).map fun li => li.name).count name = 1)
      ∧ ∀ li ∈ extract_layers (fun q => q) witDoc,
          li.entity_count = (witDoc.entities.filter fun e => e.layer = li.name).length) :=
  ⟨by decide, C4_layer_completeness (fun q => q) witDoc (by decide)⟩

/-- Claim C5: the measurement totals are the 4-decimal roundings of the sums
of the per-layer `line_length` / `closed_area` columns. -/
theorem C5_sum_invariant (s : ℚ → ℚ) (ext : Option Extents3) (doc : Document) :
    ((extract_measurements s ext doc).total_line_length
        = round4 (((extract_layers s doc).map fun l => l.line_length).sum))
    ∧ (extract_measurements s ext doc).total_closed_area
        = round4 (((extract_layers s doc).map fun l => l.closed_area).sum) :=
  ⟨rfl, rfl⟩

/-- Claim C10: a polyline with fewer than two vertices contributes nothing to
`line_length` and `closed_area` (even when flagged closed) but is still
counted in `entity_count`. -/
theorem C10_short_polyline (s : ℚ → ℚ) (acc : LAcc) (L : String) (c : Option Int)
    (ps : List Point) (closed : Bool) (h : ps.length < 2) :
    ((entityStep s acc ⟨L, c, .lwpolyline ps closed⟩).len L = acc.len L)
    ∧ ((entityStep s acc ⟨L, c, .lwpolyline ps closed⟩).area L = acc.area L)
    ∧ (entityStep s acc ⟨L, c, .lwpolyline ps closed⟩).count L = acc.count L + 1 := by
  have hlt : ¬ (1 < ps.length) := by omega
  refine ⟨?_, ?_, ?_⟩
  · simp [entityStep, hlt]
  · simp [entityStep, hlt]
  · simp [entityStep, hlt, updN]

/-- Witness for claim C10 at a one-vertex closed polyline. -/
theorem C10_short_polyline_witness :
    (([((1 : ℚ), (2 : ℚ))].length < 2)
    ∧ ((entityStep (fun q => q) LAcc.zero ⟨"A", none, .lwpolyline [(1, 2)] true⟩).len "A"
          = LAcc.zero.len "A")
      ∧ ((entityStep (fun q => q) LAcc.zero ⟨"A", none, .lwpolyline [(1, 2)] true⟩).area "A"
          = LAcc.zero.area "A")
      ∧ (entityStep (fun q => q) LAcc.zero ⟨"A", none, .lwpolyline [(1, 2)] true⟩).count "A"
          = LAcc.zero.count "A" + 1) :=
  ⟨by decide, C10_short_polyline (fun q => q) LAcc.zero "A" none [(1, 2)] true (by decide)⟩

/-! ### Cyclic-sum machinery for the polyline loop -/

/-- Sum of `f` over the adjacent pairs of a list (open chain). -/
def chain (f : Point → Point → ℚ) : List Point → ℚ
  | a :: b :: t => f a b + chain f (b :: t)
  | _ => 0

/-- The open chain sum as an indexed sum. -/
lemma chain_eq_sum (f : Point → Point → ℚ) (l : List Point) :
    chain f l = ∑ i ∈ Finset.range (l.length - 1),
      f (l.getD i (0, 0)) (l.getD (i + 1) (0, 0)) := by
  induction l with
  | nil => simp [chain]
  | cons a t ih =>
    cases t with
    | nil => simp [chain]
    | cons b t2 =>
      rw [chain]
      rw [ih]
      have hlen : (a :: b :: t2).length - 1 = (t2.length + 1 - 1) + 1 := by simp
      rw [hlen, Finset.sum_range_succ']
      simp [List.getD_cons_succ, List.getD_cons_zero]
      ring

/-- Appending one point to a chain adds one final edge from the last point. -/
lemma chain_append_last (f : Point → Point → ℚ) (l : List Point) (x : Point) :
    chain f (l ++ [x]) = chain f l + ((l.getLast?).map fun b => f b x).getD 0 := by
  induction l with
  | nil => simp [chain]
  | cons a t ih =>
    cases t with
    | nil => simp [chain]
    | cons b t2 =>
      have ha : (a :: b :: t2) ++ [x] = a :: b :: (t2 ++ [x]) := by simp
      rw [ha]
      rw [show chain f (a :: b :: (t2 ++ [x])) = f a b + chain f (b :: (t2 ++ [x])) from rfl]
      have hb : b :: (t2 ++ [x]) = (b :: t2) ++ [x] := by simp
      rw [hb, ih]
      rw [show chain f (a :: b :: t2) = f a b + chain f (b :: t2) from rfl]
      rw [List.getLast?_cons_cons]
      ring

/-- Reversing a chain negates its sum when `f` is antisymmetric. -/
lemma chain_reverse (f : Point → Point → ℚ) (hf : ∀ x y, f y x = -f x y)
    (l : List Point) : chain f l.reverse = -chain f l := by
  induction l with
  | nil => simp [chain]
  | cons a t ih =>
    cases t with
    | nil => simp [chain]
    | cons b t2 =>
      rw [List.reverse_cons, chain_append_last, ih]
      have hlast : ((b :: t2).reverse).getLast? = some b := by
        rw [List.getLast?_reverse]; rfl
      rw [hlast]
      rw [show chain f (a :: b :: t2) = f a b + chain f (b :: t2) from rfl]
      simp only [Option.map_some', Option.getD_some]
      rw [hf a b]
      ring

/-- The source's cyclic loop over a nonempty list equals the open chain over
the list with its head appended at the end. -/
lemma cyc_eq_chain (f : Point → Point → ℚ) (a : Point) (t : List Point) :
    cyc f (a :: t) = chain f ((a :: t) ++ [a]) := by
  rw [chain_eq_sum]
  have hlen : ((a :: t) ++ [a]).length - 1 = (a :: t).length := by simp
  rw [hlen]
  unfold cyc
  apply Finset.sum_congr rfl
  intro i hi
  rw [Finset.mem_range] at hi
  have h1 : ((a :: t) ++ [a]).getD i (0, 0) = (a :: t).getD i (0, 0) :=
    List.getD_append _ _ _ _ hi
  rw [h1]
  rcases Nat.lt_or_ge (i + 1) (a :: t).length with h2 | h2
  · rw [Nat.mod_eq_of_lt h2]
    rw [List.getD_append _ _ _ _ h2]
  · have h3 : i + 1 = (a :: t).length := by omega
    rw [h3, Nat.mod_self]
    have h4 : ((a :: t) ++ [a]).getD (a :: t).length (0, 0) = a := by
      rw [List.getD_append_right _ _ _ _ (Nat.le_refl _)]
      simp
    rw [h4]
    rfl

/-- Reversing the vertex list negates the source's cyclic accumulation when
`f` is antisymmetric. -/
lemma cyc_reverse (f : Point → Point → ℚ) (hf : ∀ x y, f y x = -f x y)
    (l : List Point) : cyc f l.reverse = -cyc f l := by
  cases l with
  | nil => simp [cyc]
  | cons a t =>
    rcases hrev : (a :: t).reverse with _ | ⟨c, m⟩
    · exact absurd (congrArg List.length hrev) (by simp)
    · rw [cyc_eq_chain, cyc_eq_chain]
      rw [← hrev]
      rw [chain_append_last, chain_append_last]
      rw [chain_reverse f hf]
      have hc : ((a :: t).reverse).head? = some c := by rw [hrev]; rfl
      rw [List.head?_reverse] at hc
      have hgl : ((a :: t).reverse).getLast? = some a := by
        rw [List.getLast?_reverse]; rfl
      rw [hgl, hc]
      simp only [Option.map_some', Option.getD_some]
      rw [hf c a]
      ring

/-- The shoelace term is antisymmetric. -/
lemma cross_antisymm (p q : Point) : cross q p = -cross p q := by
  simp only [cross]; ring

/-- Reversing the vertex list negates the signed shoelace sum. -/
lemma shoelace_reverse (ps : List Point) : shoelace ps.reverse = -shoelace ps :=
  cyc_reverse cross cross_antisymm ps

/-- The cyclic accumulation over a single vertex is the one degenerate
self-edge term. -/
lemma cyc_singleton (f : Point → Point → ℚ) (v : Point) : cyc f [v] = f v v := by
  simp [cyc, Finset.sum_range_one]

/-- The signed shoelace sum of fewer than two vertices is zero. -/
lemma shoelace_short (ps : List Point) (h : ps.length < 2) : shoelace ps = 0 := by
  match ps, h with
  | [], _ => rfl
  | [v], _ =>
    rw [shoelace, cyc_singleton, cross]
    ring

/-- With `s 0 = 0` (true of `math.sqrt`), the cyclic length of fewer than
two vertices is zero. -/
lemma polyLength_short (s : ℚ → ℚ) (h0 : s 0 = 0) (ps : List Point)
    (h : ps.length < 2) : polyLength s ps = 0 := by
  match ps, h with
  | [], _ => rfl
  | [v], _ =>
    rw [polyLength, cyc_singleton, segLen]
    have hz : (v.1 - v.1) ^ 2 + (v.2 - v.2) ^ 2 = 0 := by ring
    rw [hz, h0]

/-- The `line_length` effect of the polyline branch of `entityStep`. -/
lemma entityStep_lwpolyline_len (s : ℚ → ℚ) (acc : LAcc) (L : String)
    (c : Option Int) (ps : List Point) (closed : Bool) :
    (entityStep s acc ⟨L, c, .lwpolyline ps closed⟩).len L =
      if 1 < ps.length then acc.len L + polyLength s ps else acc.len L := by
  simp only [entityStep]
  split
  · cases closed <;> simp [updQ]
  · rfl

/-- The `closed_area` effect of the polyline branch of `entityStep`. -/
lemma entityStep_lwpolyline_area (s : ℚ → ℚ) (acc : LAcc) (L : String)
    (c : Option Int) (ps : List Point) (closed : Bool) :
    (entityStep s acc ⟨L, c, .lwpolyline ps closed⟩).area L =
      if closed = true ∧ 1 < ps.length then acc.area L + |shoelace ps| / 2
      else acc.area L := by
  simp only [entityStep]
  split
  · rename_i h
    cases closed
    · simp
    · simp [h, updQ]
  · rename_i h
    simp [h]

/-- Claim C2: for a polyline entity, `extract_layers`' accumulation step adds
to the layer's `line_length` the sum of segment lengths over all edges
`v_i -> v_{(i+1) mod n}` — the wrap-around edge included — whatever the
value of the `closed` flag. -/
theorem C2_polyline_ring_length (s : ℚ → ℚ) (h0 : s 0 = 0) (acc : LAcc)
    (L : String) (c : Option Int) (ps : List Point) (closed : Bool) :
    (entityStep s acc ⟨L, c, .lwpolyline ps closed⟩).len L
      = acc.len L + ∑ i ∈ Finset.range ps.length,
          segLen s (ps.getD i (0, 0)) (ps.getD ((i + 1) % ps.length) (0, 0)) := by
  rw [entityStep_lwpolyline_len]
  rw [show (∑ i ∈ Finset.range ps.length,
      segLen s (ps.getD i (0, 0)) (ps.getD ((i + 1) % ps.length) (0, 0)))
    = polyLength s ps from rfl]
  split
  · rfl
  · rename_i h
    rw [polyLength_short s h0 ps (by omega)]
    ring

/-- Witness for claim C2 at a two-vertex open polyline with the identity as
the abstract square root. -/
theorem C2_polyline_ring_length_witness :
    ((fun q : ℚ => q) 0 = 0)
    ∧ (entityStep (fun q : ℚ => q) LAcc.zero
          ⟨"A", none, .lwpolyline [(0, 0), (3, 4)] false⟩).len "A"
        = LAcc.zero.len "A" + ∑ i ∈ Finset.range ([((0 : ℚ), (0 : ℚ)), (3, 4)]).length,
            segLen (fun q : ℚ => q)
              (([((0 : ℚ), (0 : ℚ)), (3, 4)]).getD i (0, 0))
              (([((0 : ℚ), (0 : ℚ)), (3, 4)]).getD ((i + 1) % ([((0 : ℚ), (0 : ℚ)), (3, 4)]).length) (0, 0)) :=
  ⟨rfl, C2_polyline_ring_length (fun q => q) rfl LAcc.zero "A" none [(0, 0), (3, 4)] false⟩

/-- Claim C3: a closed polyline adds exactly `|shoelace| / 2` to its layer's
`closed_area`; that quantity is non-negative and invariant under reversing
the vertex order; an open polyline adds nothing. -/
theorem C3_shoelace_area (s : ℚ → ℚ) (acc : LAcc) (L : String) (c : Option Int)
    (ps : List Point) :
    ((entityStep s acc ⟨L, c, .lwpolyline ps true⟩).area L
        = acc.area L + |shoelace ps| / 2)
    ∧ (0 ≤ |shoelace ps| / 2)
    ∧ (|shoelace ps.reverse| = |shoelace ps|)
    ∧ (entityStep s acc ⟨L, c, .lwpolyline ps false⟩).area L = acc.area L := by
  refine ⟨?_, ?_, ?_, ?_⟩
  · rw [entityStep_lwpolyline_area]
    split
    · rfl
    · rename_i h
      have hlen : ps.length < 2 := by
        rcases Nat.lt_or_ge ps.length 2 with hl | hl
        · exact hl
        · exact absurd ⟨rfl, by omega⟩ h
      rw [shoelace_short ps hlen]
      simp
  · positivity
  · rw [shoelace_reverse]
    exact abs_neg _
  · rw [entityStep_lwpolyline_area]
    simp

/-! ### Bounding-box lemmas -/

/-- A left fold of `min` is bounded by its seed. -/
lemma foldl_min_le_init (t : List ℚ) : ∀ a, t.foldl min a ≤ a := by
  induction t with
  | nil => intro a; exact le_refl a
  | cons b t ih =>
    intro a
    exact le_trans (ih (min a b)) (min_le_left a b)

/-- A left fold of `min` is bounded by every list element. -/
lemma foldl_min_le_mem (t : List ℚ) : ∀ a x, x ∈ t → t.foldl min a ≤ x := by
  induction t with
  | nil => intro a x hx; cases hx
  | cons b t ih =>
    intro a x hx
    rcases List.mem_cons.mp hx with rfl | h2
    · exact le_trans (foldl_min_le_init t (min a x)) (min_le_right a x)
    · exact ih (min a b) x h2

/-- A left fold of `max` bounds its seed. -/
lemma le_foldl_max_init (t : List ℚ) : ∀ a, a ≤ t.foldl max a := by
  induction t with
  | nil => intro a; exact le_refl a
  | cons b t ih =>
    intro a
    exact le_trans (le_max_left a b) (ih (max a b))

/-- A left fold of `max` bounds every list element. -/
lemma le_foldl_max_mem (t : List ℚ) : ∀ a x, x ∈ t → x ≤ t.foldl max a := by
  induction t with
  | nil => intro a x hx; cases hx
  | cons b t ih =>
    intro a x hx
    rcases List.mem_cons.mp hx with rfl | h2
    · exact le_trans (le_max_right a x) (le_foldl_max_init t (max a x))
    · exact ih (max a b) x h2

/-- `qmin` bounds every member from below. -/
lemma qmin_le (l : List ℚ) (x : ℚ) (h : x ∈ l) : qmin l ≤ x := by
  cases l with
  | nil => cases h
  | cons a t =>
    rcases List.mem_cons.mp h with rfl | h2
    · exact foldl_min_le_init t x
    · exact foldl_min_le_mem t a x h2

/-- `qmax` bounds every member from above. -/
lemma le_qmax (l : List ℚ) (x : ℚ) (h : x ∈ l) : x ≤ qmax l := by
  cases l with
  | nil => cases h
  | cons a t =>
    rcases List.mem_cons.mp h with rfl | h2
    · exact le_foldl_max_init t x
    · exact le_foldl_max_mem t a x h2

/-- Every point an entity contributes to the fallback scan is among the
points collected by the entity-list fold. -/
lemma mem_foldr_fallback (es : List Entity) (e : Entity) (he : e ∈ es)
    (pt : ℚ × ℚ × ℚ) (hp : pt ∈ fallbackEntityPoints e) :
    pt ∈ es.foldr (fun e2 acc => fallbackEntityPoints e2 ++ acc) [] := by
  induction es with
  | nil => cases he
  | cons a t ih =>
    rw [List.foldr_cons]
    rcases List.mem_cons.mp he with rfl | h2
    · exact List.mem_append_left _ hp
    · exact List.mem_append_right _ (ih h2)

/-- Every point an entity contributes to the fallback scan is in
`fallbackPoints`. -/
lemma mem_fallbackPoints (doc : Document) (e : Entity) (he : e ∈ doc.entities)
    (pt : ℚ × ℚ × ℚ) (hp : pt ∈ fallbackEntityPoints e) :
    pt ∈ fallbackPoints doc :=
  mem_foldr_fallback doc.entities e he pt hp

/-- A `Line` endpoint or `Polyline` vertex appears (z-padded) among the
entity's fallback points. -/
lemma entityPoints2D_mem_fallback (e : Entity) (p : Point)
    (hp : p ∈ entityPoints2D e) :
    ((p.1, p.2, 0) : ℚ × ℚ × ℚ) ∈ fallbackEntityPoints e := by
  rcases e with ⟨L, c, k⟩
  cases k with
  | line a b =>
    simp only [entityPoints2D] at hp
    rcases List.mem_cons.mp hp with rfl | hp2
    · simp [fallbackEntityPoints]
    · rcases List.mem_cons.mp hp2 with rfl | hp3
      · simp [fallbackEntityPoints]
      · cases hp3
  | lwpolyline ps cl =>
    simp only [entityPoints2D] at hp
    simp only [fallbackEntityPoints]
    exact List.mem_map_of_mem _ hp
  | hatch o => cases hp
  | circle a r => cases hp
  | arc a r sa ea => cases hp
  | text a t h r => cases hp
  | mtext a t h r => cases hp
  | dimension a b c2 d2 e2 => cases hp
  | other t => cases hp

/-- The fallback branch of `calculate_bounding_box` on a document with at
least one collected point. -/
lemma calculate_bounding_box_none (doc : Document) (h : fallbackPoints doc ≠ []) :
    calculate_bounding_box none doc =
      boxOfCorners
        (qmin ((fallbackPoints doc).map fun p => p.1),
          qmin ((fallbackPoints doc).map fun p => p.2.1),
          qmin ((fallbackPoints doc).map fun p => p.2.2))
        (qmax ((fallbackPoints doc).map fun p => p.1),
          qmax ((fallbackPoints doc).map fun p => p.2.1),
          qmax ((fallbackPoints doc).map fun p => p.2.2)) := by
  have hfalse : (fallbackPoints doc).isEmpty = false := List.isEmpty_eq_false.mpr h
  simp [calculate_bounding_box, hfalse]

/-- Claim C6: every `Line` endpoint and `Polyline` vertex of the document
lies within the x and y bounds of the computed bounding box (inclusive),
assuming the external extents query, when it answers, is valid. -/
theorem C6_bounding_containment (doc : Document) (ext : Option Extents3)
    (hext : ExtentsValid doc ext) :
    ∀ e ∈ doc.entities, ∀ p ∈ entityPoints2D e,
      ((calculate_bounding_box ext doc).min_x ≤ p.1
          ∧ p.1 ≤ (calculate_bounding_box ext doc).max_x)
      ∧ ((calculate_bounding_box ext doc).min_y ≤ p.2
          ∧ p.2 ≤ (calculate_bounding_box ext doc).max_y) := by
  intro e he p hp
  cases ext with
  | some ex =>
    obtain ⟨-, hcont⟩ := hext ex rfl
    obtain ⟨h1, h2, h3, h4⟩ := hcont e he p hp
    exact ⟨⟨h1, h2⟩, h3, h4⟩
  | none =>
    have hmem : ((p.1, p.2, 0) : ℚ × ℚ × ℚ) ∈ fallbackPoints doc :=
      mem_fallbackPoints doc e he _ (entityPoints2D_mem_fallback e p hp)
    have hne : fallbackPoints doc ≠ [] := by
      intro hh
      rw [hh] at hmem
      cases hmem
    rw [calculate_bounding_box_none doc hne]
    refine ⟨⟨?_, ?_⟩, ?_, ?_⟩
    · exact qmin_le _ _ (List.mem_map_of_mem _ hmem)
    · exact le_qmax _ _ (List.mem_map_of_mem _ hmem)
    · exact qmin_le _ _ (List.mem_map_of_mem _ hmem)
    · exact le_qmax _ _ (List.mem_map_of_mem _ hmem)

/-- The single line entity of `witDoc`. -/
def lineEnt : Entity := ⟨"A", some 1, .line (0, 0) (3, 4)⟩

/-- Witness for claim C6 at `witDoc` with a failed extents query. -/
theorem C6_bounding_containment_witness :
    ExtentsValid witDoc none
    ∧ lineEnt ∈ witDoc.entities
    ∧ ((0 : ℚ), (0 : ℚ)) ∈ entityPoints2D lineEnt
    ∧ (((calculate_bounding_box none witDoc).min_x ≤ ((0 : ℚ), (0 : ℚ)).1
        ∧ ((0 : ℚ), (0 : ℚ)).1 ≤ (calculate_bounding_box none witDoc).max_x)
      ∧ ((calculate_bounding_box none witDoc).min_y ≤ ((0 : ℚ), (0 : ℚ)).2
        ∧ ((0 : ℚ), (0 : ℚ)).2 ≤ (calculate_bounding_box none witDoc).max_y)) :=
  by
  have hv : ExtentsValid witDoc none := by
    intro ex h
    cases h
  exact ⟨hv, by decide, by decide,
    C6_bounding_containment witDoc none hv lineEnt (by decide)
      ((0 : ℚ), (0 : ℚ)) (by decide)⟩

/-- Claim C7: on the empty document the bounding box is the all-zero
sentinel, the layer statistics sequence is empty, and the entity total
is zero. -/
theorem C7_empty_document (s : ℚ → ℚ) (ext : Option Extents3)
    (hext : ExtentsValid ⟨[], []⟩ ext) :
    calculate_bounding_box ext ⟨[], []⟩ = zeroBox
    ∧ extract_layers s ⟨[], []⟩ = []
    ∧ (extract_measurements s ext ⟨[], []⟩).total_entities = 0 := by
  have hnone : ext = none := by
    cases ext with
    | none => rfl
    | some ex => exact absurd rfl (hext ex rfl).1
  subst hnone
  exact ⟨rfl, rfl, rfl⟩

/-- Witness for claim C7 with a failed extents query. -/
theorem C7_empty_document_witness :
    ExtentsValid ⟨[], []⟩ none
    ∧ (calculate_bounding_box none ⟨[], []⟩ = zeroBox
      ∧ extract_layers (fun q => q) ⟨[], []⟩ = []
      ∧ (extract_measurements (fun q => q) none ⟨[], []⟩).total_entities = 0) :=
  by
  have hv : ExtentsValid ⟨[], []⟩ none := by
    intro ex h
    cases h
  exact ⟨hv, C7_empty_document (fun q => q) none hv⟩

/-! ### Error isolation and preview projection -/

/-- Claim C8: a dimension whose required read fails loses only its own
record — the other dimension records, the bounding box, and the layer
totals are all still produced — and a preview projection failure skips only
the failing entity. -/
theorem C8_error_isolation (s : ℚ → ℚ) (ext : Option Extents3)
    (ls : List Layer) (pre post : List Entity) (bad : Entity)
    (dt : Option String) (am : Option ℚ) (ds : String) (dp tm : Option Point)
    (hbad : bad.kind = .dimension dt am ds dp tm)
    (hfail : dt = none ∨ am = none)
    (pre2 post2 : List Entity) (bad2 : Entity)
    (hproj : projectEntity bad2 = none) :
    ((extract_measurements s ext ⟨pre ++ bad :: post, ls⟩).dimensions
        = pre.filterMap dimRecord ++ post.filterMap dimRecord)
    ∧ ((extract_measurements s ext ⟨pre ++ bad :: post, ls⟩).bounding_box
        = calculate_bounding_box ext ⟨pre ++ bad :: post, ls⟩)
    ∧ ((extract_measurements s ext ⟨pre ++ bad :: post, ls⟩).total_line_length
        = round4 (((extract_layers s ⟨pre ++ bad :: post, ls⟩).map
            fun l => l.line_length).sum))
    ∧ (extract_preview_geometry ext ⟨pre2 ++ bad2 :: post2, ls⟩).2
        = pre2.filterMap projectEntity ++ post2.filterMap projectEntity := by
  have hdimnone : dimRecord bad = none := by
    rcases bad with ⟨L, c, k⟩
    simp only at hbad
    subst hbad
    rcases hfail with rfl | rfl
    · cases am <;> rfl
    · cases dt <;> rfl
  refine ⟨?_, rfl, rfl, ?_⟩
  · show (pre ++ bad :: post).filterMap dimRecord = _
    rw [List.filterMap_append, List.filterMap_cons, hdimnone]
  · show (pre2 ++ bad2 :: post2).filterMap projectEntity = _
    rw [List.filterMap_append, List.filterMap_cons, hproj]

/-- A dimension entity whose `get_text()` read fails. -/
def badDim : Entity := ⟨"D", none, .dimension none (some 5) "Standard" none none⟩

/-- A dimension entity whose reads all succeed. -/
def goodDim : Entity :=
  ⟨"D", none, .dimension (some "5.0") (some 5) "Standard" none none⟩

/-- A text entity whose height read fails, so its preview projection fails. -/
def badText : Entity := ⟨"T", none, .text (0, 0) "hi" none none⟩

/-- Witness for claim C8: the broken dimension and the broken text entity
are each dropped while their neighbours survive. -/
theorem C8_error_isolation_witness :
    (badDim.kind = .dimension none (some 5) "Standard" none none)
    ∧ ((none : Option String) = none ∨ (some (5 : ℚ) : Option ℚ) = none)
    ∧ (projectEntity badText = none)
    ∧ (((extract_measurements (fun q => q) none ⟨[] ++ badDim :: [goodDim], []⟩).dimensions
          = ([] : List Entity).filterMap dimRecord ++ [goodDim].filterMap dimRecord)
      ∧ ((extract_measurements (fun q => q) none ⟨[] ++ badDim :: [goodDim], []⟩).bounding_box
          = calculate_bounding_box none ⟨[] ++ badDim :: [goodDim], []⟩)
      ∧ ((extract_measurements (fun q => q) none ⟨[] ++ badDim :: [goodDim], []⟩).total_line_length
          = round4 (((extract_layers (fun q => q) ⟨[] ++ badDim :: [goodDim], []⟩).map
              fun l => l.line_length).sum))
      ∧ (extract_preview_geometry none ⟨[] ++ badText :: [lineEnt], []⟩).2
          = ([] : List Entity).filterMap projectEntity ++ [lineEnt].filterMap projectEntity) :=
  ⟨rfl, Or.inl rfl, rfl,
    C8_error_isolation (fun q => q) none [] [] [goodDim] badDim
      none (some 5) "Standard" none none rfl (Or.inl rfl) [] [lineEnt] badText rfl⟩

/-- The six preview-supported entity kinds. -/
def projectableKind : EKind → Bool
  | .line .. => true
  | .lwpolyline .. => true
  | .circle .. => true
  | .arc .. => true
  | .text .. => true
  | .mtext .. => true
  | _ => false

/-- Claim C9: only the six supported kinds are projected, each with exactly
the payload of the §4.4 table; other kinds yield nothing; the color index
defaults to 7 when the entity exposes none. -/
theorem C9_preview_projection (e : Entity) :
    (projectableKind e.kind = false → projectEntity e = none)
    ∧ ∀ ge, projectEntity e = some ge →
        ge.layer = e.layer
        ∧ ge.color = e.color.getD 7
        ∧ (match e.kind with
          | .line p q => ge.geType = "LINE" ∧ ge.data = .line p q
          | .lwpolyline ps cl => ge.geType = "LWPOLYLINE" ∧ ge.data = .polyline ps cl
          | .circle c r => ge.geType = "CIRCLE" ∧ ge.data = .circle c r
          | .arc c r sa ea => ge.geType = "ARC" ∧ ge.data = .arc c r sa ea
          | .text pos t h? rot? => ge.geType = "TEXT"
              ∧ ∃ h, h? = some h ∧ ge.data = .text pos t h (rot?.getD 0)
          | .mtext pos t h? rot? => ge.geType = "MTEXT"
              ∧ ∃ h, h? = some h ∧ ge.data = .mtext pos t h (rot?.getD 0)
          | _ => False) := by
  rcases e with ⟨L, c, k⟩
  cases k with
  | line p q =>
    refine ⟨fun hk => by simp [projectableKind] at hk, fun ge hge => ?_⟩
    simp only [projectEntity, Option.some.injEq] at hge
    subst hge
    exact ⟨rfl, rfl, rfl, rfl⟩
  | lwpolyline ps cl =>
    refine ⟨fun hk => by simp [projectableKind] at hk, fun ge hge => ?_⟩
    simp only [projectEntity, Option.some.injEq] at hge
    subst hge
    exact ⟨rfl, rfl, rfl, rfl⟩
  | circle c2 r =>
    refine ⟨fun hk => by simp [projectableKind] at hk, fun ge hge => ?_⟩
    simp only [projectEntity, Option.some.injEq] at hge
    subst hge
    exact ⟨rfl, rfl, rfl, rfl⟩
  | arc c2 r sa ea =>
    refine ⟨fun hk => by simp [projectableKind] at hk, fun ge hge => ?_⟩
    simp only [projectEntity, Option.some.injEq] at hge
    subst hge
    exact ⟨rfl, rfl, rfl, rfl⟩
  | text pos t h? rot? =>
    refine ⟨fun hk => by simp [projectableKind] at hk, fun ge hge => ?_⟩
    cases h? with
    | none => simp [projectEntity] at hge
    | some h =>
      simp only [projectEntity, Option.map_some', Option.some.injEq] at hge
      subst hge
      exact ⟨rfl, rfl, rfl, h, rfl, rfl⟩
  | mtext pos t h? rot? =>
    refine ⟨fun hk => by simp [projectableKind] at hk, fun ge hge => ?_⟩
    cases h? with
    | none => simp [projectEntity] at hge
    | some h =>
      simp only [projectEntity, Option.map_some', Option.some.injEq] at hge
      subst hge
      exact ⟨rfl, rfl, rfl, h, rfl, rfl⟩
  | hatch o =>
    exact ⟨fun _ => rfl, fun ge hge => by simp [projectEntity] at hge⟩
  | dimension a b c2 d2 e2 =>
    exact ⟨fun _ => rfl, fun ge hge => by simp [projectEntity] at hge⟩
  | other t =>
    exact ⟨fun _ => rfl, fun ge hge => by simp [projectEntity] at hge⟩

/-- The projection of `lineEnt`. -/
def geL : GeometryEntity :=
  { geType := "LINE", layer := "A", color := 1, data := .line (0, 0) (3, 4) }

/-- Witness for claim C9 at `lineEnt`. -/
theorem C9_preview_projection_witness :
    projectEntity lineEnt = some geL
    ∧ (geL.layer = lineEnt.layer
      ∧ geL.color = lineEnt.color.getD 7
      ∧ (match lineEnt.kind with
        | .line p q => geL.geType = "LINE" ∧ geL.data = .line p q
        | .lwpolyline ps cl => geL.geType = "LWPOLYLINE" ∧ geL.data = .polyline ps cl
        | .circle c r => geL.geType = "CIRCLE" ∧ geL.data = .circle c r
        | .arc c r sa ea => geL.geType = "ARC" ∧ geL.data = .arc c r sa ea
        | .text pos t h? rot? => geL.geType = "TEXT"
            ∧ ∃ h, h? = some h ∧ geL.data = .text pos t h (rot?.getD 0)
        | .mtext pos t h? rot? => geL.geType = "MTEXT"
            ∧ ∃ h, h? = some h ∧ geL.data = .mtext pos t h (rot?.getD 0)
        | _ => False)) :=
  ⟨rfl, (C9_preview_projection lineEnt).2 geL rfl⟩
